import Mathlib

/-!
Verification development for the step-execution core of the kimi-cli agent
runtime. The step loop, retry classification, compaction driver and the
TagContext tool are embedded from `src/kimi_cli/soul/kimisoul.py`,
`src/kimi_cli/soul/toolset.py` and `src/kimi_cli/tools/tag_context/__init__.py`.
The `Context` and `MetadataStore` collaborators are shipped outside the
sources at hand (only their tests are present), so their operations are
modelled from the specification, sections 4.1 and 4.2, and validated against
`tests/test_metadata_store.py` and `tests/test_tag_context.py`.
-/

namespace Kimi

/-! ## Data model -/

inductive Role
  | user
  | assistant
  | tool
  | system
deriving DecidableEq, Repr

structure Message where
  role : Role
  content : String
  id : String
deriving DecidableEq, Repr

/-- A checkpoint records the history position and the token count at the
moment it was taken. -/
structure Checkpoint where
  histLen : Nat
  tokenCount : Nat
deriving DecidableEq, Repr

inductive Policy
  | pin_outcome
  | pin_process
  | auto
deriving DecidableEq, Repr

structure PinRecord where
  task_id : String
  message_ids : List String
  policy : Policy
  ttl_steps : Nat
  importance : Nat
  notes : Option String
  created_at_step : Nat
deriving DecidableEq, Repr

structure TodoTaskMap where
  todo_id : String
  task_id : String
deriving DecidableEq, Repr

structure ArtifactRecord where
  task_id : String
  kind : String
  path : Option String
  bytes_size : Option Nat
deriving DecidableEq, Repr

/-- All metadata record kinds share one append-only log; readers filter by
the discriminator. -/
inductive MetaRecord
  | tag (p : PinRecord)
  | map (m : TodoTaskMap)
  | artifact (a : ArtifactRecord)
deriving DecidableEq, Repr

/-- Modelled from the spec: the Metadata Store is an append-only log of
records plus a step counter (`metadata_store.py` is not among the sources;
the model follows spec section 4.2 and `tests/test_metadata_store.py`).
`log = none` models the state in which the backing log file does not exist
yet. -/
structure MetadataStore where
  log : Option (List MetaRecord)
  current_step : Nat
deriving DecidableEq, Repr

/-- Modelled from the spec: `tag` appends a PinRecord stamped with
`created_at_step = current_step`, creating the log if absent. -/
def MetadataStore.tag (s : MetadataStore) (task_id : String) (message_ids : List String)
    (policy : Policy) (ttl_steps : Nat) (importance : Nat) (notes : Option String) :
    MetadataStore :=
  { s with log := some ((s.log.getD []) ++
      [MetaRecord.tag ⟨task_id, message_ids, policy, ttl_steps, importance, notes,
        s.current_step⟩]) }

def MetaRecord.asTag : MetaRecord → Option PinRecord
  | .tag p => some p
  | _ => none

/-- Stable insertion (descending by importance): an element already in the
list stays in front of the inserted one exactly when its importance is
strictly greater, so equal-importance records keep log order. -/
def insertPin (p : PinRecord) : List PinRecord → List PinRecord
  | [] => [p]
  | q :: qs => if p.importance < q.importance then q :: insertPin p qs else p :: q :: qs

/-- Stable sort by importance descending, as produced by a stable sort on
the negated importance key. -/
def sortPins : List PinRecord → List PinRecord
  | [] => []
  | p :: ps => insertPin p (sortPins ps)

/-- The tag records of a log that are still active at `step`, in log order
(before sorting by importance). -/
def activePinsUnsorted (l : List MetaRecord) (step : Nat) : List PinRecord :=
  (l.filterMap MetaRecord.asTag).filter (fun p => decide (step < p.created_at_step + p.ttl_steps))

/-- Modelled from the spec: `list_active_pins` reads the full log, filters to
tag records, discards expired ones relative to `current_step` (defaulting to
the store's own step counter), and returns the remainder sorted by importance
descending, ties in log order; a missing log yields the empty sequence. -/
def MetadataStore.list_active_pins (s : MetadataStore) (current_step : Option Nat) :
    List PinRecord :=
  let step := current_step.getD s.current_step
  match s.log with
  | none => []
  | some l => sortPins (activePinsUnsorted l step)

/-! ## Context -/

/-- Modelled from the spec: the Context owns the conversation history, the
checkpoint index, the running token count and a handle to the Metadata Store
(`context.py` is not among the sources; the model follows spec section 4.1). -/
structure Context where
  history : List Message
  checkpoints : List Checkpoint
  token_count : Nat
  meta : MetadataStore
deriving DecidableEq, Repr

/-- The lightweight marker message optionally appended before a checkpoint
(its exact content is irrelevant to every property below). -/
def markerMessage : Message := ⟨Role.user, "", ""⟩

/-- Modelled from the spec: `append` adds messages at the end of history in
order. -/
def Context.append_message (ctx : Context) (msgs : List Message) : Context :=
  { ctx with history := ctx.history ++ msgs }

def Context.n_checkpoints (ctx : Context) : Nat :=
  ctx.checkpoints.length

/-- Modelled from the spec: `checkpoint` optionally appends a marker message
first, then records a new Checkpoint at the current end of history; the new
checkpoint id is `n_checkpoints` before insertion. -/
def Context.checkpoint (ctx : Context) (include_marker : Bool) : Context :=
  let c := if include_marker then ctx.append_message [markerMessage] else ctx
  { c with checkpoints := c.checkpoints ++ [⟨c.history.length, c.token_count⟩] }

/-- Modelled from the spec: `revert_to` truncates history back to the state
captured at `checkpoint_id`, discards every later checkpoint and resets the
token count; it fails (`InvalidCheckpoint`, here `none`) when the id is out
of range. -/
def Context.revert_to (ctx : Context) (checkpoint_id : Nat) : Option Context :=
  if h : checkpoint_id < ctx.checkpoints.length then
    let cp := ctx.checkpoints.get ⟨checkpoint_id, h⟩
    some { ctx with
      history := ctx.history.take cp.histLen,
      checkpoints := ctx.checkpoints.take (checkpoint_id + 1),
      token_count := cp.tokenCount }
  else none

def Context.update_token_count (ctx : Context) (n : Nat) : Context :=
  { ctx with token_count := n }

/-- Modelled from the spec: up to `n` most recent message identifiers whose
role is in `roles`, most-recent-last. -/
def Context.get_recent_message_ids (ctx : Context) (n : Nat) (roles : List Role) :
    List String :=
  ((((ctx.history.filter (fun m => decide (m.role ∈ roles))).map (fun m => m.id)).reverse).take
    n).reverse

/-! ## Retry policy (`KimiSoul._is_retryable_error` and the tenacity wrapper) -/

/-- The error taxonomy seen by `_is_retryable_error`: `connection` is
`APIConnectionError`, `timeout` is `APITimeoutError`, `status c` is
`APIStatusError` with `status_code = c`, and `otherErr` stands for any other
exception. -/
inductive ProviderErr
  | connection
  | timeout
  | status (code : Nat)
  | otherErr
deriving DecidableEq, Repr

/-- Embedding of `KimiSoul._is_retryable_error`. -/
def is_retryable_error : ProviderErr → Bool
  | .connection => true
  | .timeout => true
  | .status code => code == 429 || code == 500 || code == 502 || code == 503
  | .otherErr => false

/-- How one failed-or-succeeded attempt continues: success returns, a
retryable error falls through to the remaining attempts, a non-retryable
error is re-raised unchanged. -/
def retryResume {α : Type} : Except ProviderErr α → Except ProviderErr α →
    Except ProviderErr α
  | .ok a, _ => .ok a
  | .error e, next => if is_retryable_error e then next else .error e

/-- The attempt rounds of the tenacity wrapper configured in
`KimiSoul._step` and `KimiSoul.compact_context`: `calls k` is the outcome of
the k-th attempt of the wrapped provider call, the first argument is the
number of attempts still allowed after the current one (backoff sleeping
does not affect which value is returned, so it is not modelled). With
`reraise=True` the original error is re-raised unchanged on exhaustion or
on a non-retryable error. -/
def retryFrom {α : Type} (calls : Nat → Except ProviderErr α) :
    Nat → Nat → Except ProviderErr α
  | 0, attempt => calls attempt
  | f + 1, attempt => retryResume (calls attempt) (retryFrom calls f (attempt + 1))

/-- The whole retried call with `stop_after_attempt maxAttempts`: attempts
are numbered from 1, and at most `maxAttempts` attempts run. -/
def retryCall {α : Type} (maxAttempts : Nat) (calls : Nat → Except ProviderErr α) :
    Except ProviderErr α :=
  retryFrom calls (maxAttempts - 1) 1

/-! ## The step (`KimiSoul._step` and `KimiSoul._grow_context`) -/

structure Usage where
  input : Nat
  total : Nat
deriving DecidableEq, Repr

structure ToolCallRec where
  id : String
deriving DecidableEq, Repr

/-- One tool result as the toolset materializes it: whether the user rejected
the action (`ToolRejectedError`), and the messages `tool_result_to_messages`
produces for it. -/
structure ToolResultRec where
  rejected : Bool
  messages : List Message
deriving DecidableEq, Repr

/-- A pending time-travel signal (D-Mail) as fetched from the DenwaRenji. -/
structure Dmail where
  checkpoint_id : Nat
  message : String
deriving DecidableEq, Repr

/-- The kosong step result: the model message, the issued tool calls, and
optional usage. -/
structure StepResultRec where
  message : Message
  tool_calls : List ToolCallRec
  usage : Option Usage
deriving DecidableEq, Repr

/-- The advisory text injected for a D-Mail, from the f-string in
`KimiSoul._step`. -/
def dmailAdvisory (m : String) : String :=
  "You just got a D-Mail from your future self. " ++
  "It is likely that your future self has already done " ++
  "something in the current working directory. Please read " ++
  "the D-Mail and decide what to do next. You MUST NEVER " ++
  "mention to the user about this information. " ++
  "D-Mail content:\n\n" ++ m.trim

/-- The injected advisory messages carried by a `BackToTheFuture`. -/
def dmailMessages (d : Dmail) : List Message :=
  [⟨Role.user, dmailAdvisory d.message, ""⟩]

/-- The externally determined outcome of one step body: the (already
retried) provider call propagates an error, the step is cancelled, or the
call returns a result together with the awaited tool results and whatever
pending D-Mail a tool registered during the step. -/
inductive StepCall
  | err (e : ProviderErr)
  | cancel
  | ok (r : StepResultRec) (tool_results : List ToolResultRec) (dmail : Option Dmail)
deriving DecidableEq, Repr

/-- How `_step` returns to the loop: a propagated provider error, a
propagated cancellation, a raised `BackToTheFuture`, a failed assertion on
the D-Mail checkpoint id, or a normal return of the `finished` flag. -/
inductive StepOut
  | err (e : ProviderErr)
  | cancel
  | back (checkpoint_id : Nat) (msgs : List Message)
  | assertFail
  | done (finished : Bool)
deriving DecidableEq, Repr

/-- Embedding of `KimiSoul._grow_context`: append the model message, update
the token count to the reported total, then append every tool result's
messages in order. -/
def grow_context (ctx : Context) (r : StepResultRec) (tool_results : List ToolResultRec) :
    Context :=
  let c1 := ctx.append_message [r.message]
  let c2 := match r.usage with
    | some u => c1.update_token_count u.total
    | none => c1
  tool_results.foldl (fun c tr => c.append_message tr.messages) c2

/-- The context mutation a successful step performs: mark the token count
with `usage.input` before the step (when usage is reported), then grow the
context. -/
def stepContext (ctx : Context) (r : StepResultRec) (tool_results : List ToolResultRec) :
    Context :=
  let c1 := match r.usage with
    | some u => ctx.update_token_count u.input
    | none => ctx
  grow_context c1 r tool_results

/-- Embedding of `KimiSoul._step` after the retried provider call: update
the token count from usage, grow the context (shielded in the source), then
either short-circuit on a rejected tool result (discarding any pending
D-Mail), raise `BackToTheFuture` for a pending D-Mail (after the asserted
bound check), or report `finished` exactly when the model issued no tool
calls. -/
def stepRun (ctx : Context) (inp : StepCall) : Context × StepOut :=
  match inp with
  | .err e => (ctx, .err e)
  | .cancel => (ctx, .cancel)
  | .ok r tool_results dmail =>
    let c2 := stepContext ctx r tool_results
    let out : StepOut :=
      if tool_results.any (fun tr => tr.rejected) then .done true
      else
        match dmail with
        | some d =>
          if d.checkpoint_id < c2.n_checkpoints then .back d.checkpoint_id (dmailMessages d)
          else .assertFail
        | none => .done r.tool_calls.isEmpty
    (c2, out)

/-! ## The agent loop (`KimiSoul._agent_loop`, `KimiSoul.run`,
`KimiSoul.compact_context`) -/

/-- The loop-control parameters and the constants read by the loop. -/
structure LoopConfig where
  max_steps_per_run : Nat
  max_context_size : Nat
  reserved_tokens : Nat
  with_marker : Bool
deriving DecidableEq, Repr

/-- The externally determined outcome of the (already retried) compaction
provider call, when compaction is triggered. -/
inductive CompactionCall
  | err (e : ProviderErr)
  | cancel
  | ok (replacement : List Message)
deriving DecidableEq, Repr

/-- The external events of one iteration of the agent loop. -/
structure IterInput where
  compaction : CompactionCall
  step : StepCall
deriving DecidableEq, Repr

/-- How one `run` invocation terminates. `assertFailure` models a violated
assertion on the D-Mail checkpoint id; `invalidCheckpoint` models a failed
`revert_to` (both propagate as unhandled exceptions in the source). -/
inductive RunResult
  | llmNotSet
  | completed
  | cancelledRun
  | maxSteps (n : Nat)
  | providerError (e : ProviderErr)
  | assertFailure
  | invalidCheckpoint
deriving DecidableEq, Repr

/-- One loop iteration either stops the whole run or continues with a new
context and step number. -/
inductive IterOut
  | stop (r : RunResult) (ctx : Context)
  | next (ctx : Context) (step_no : Nat)
deriving DecidableEq, Repr

/-- The tail of `KimiSoul.compact_context` once the retried compaction call
has returned `replacement`: revert to checkpoint 0, re-checkpoint, append
the replacement. -/
def compact_apply (w : Bool) (ctx : Context) (replacement : List Message) : Option Context :=
  (ctx.revert_to 0).map (fun c => (c.checkpoint w).append_message replacement)

/-- Embedding of `KimiSoul.compact_context`: the compaction provider call
under the retry policy, then `compact_apply`. -/
def compact_context (maxAttempts : Nat) (calls : Nat → Except ProviderErr (List Message))
    (w : Bool) (ctx : Context) : Except ProviderErr (Option Context) :=
  (retryCall maxAttempts calls).map (compact_apply w ctx)

/-- How `KimiSoul._agent_loop` dispatches on the way `_step` ended: a
`BackToTheFuture` reverts, re-checkpoints, appends the injected messages and
continues with the same step number; provider errors and cancellations break
the loop; a normal step returns or increments the step number, failing
fatally past `max_steps_per_run`. -/
def stepDispatch (cfg : LoopConfig) (step_no : Nat) (p : Context × StepOut) : IterOut :=
  match p with
  | (c3, .err e) => .stop (.providerError e) c3
  | (c3, .cancel) => .stop .cancelledRun c3
  | (c3, .assertFail) => .stop .assertFailure c3
  | (c3, .back cid msgs) =>
    match c3.revert_to cid with
    | none => .stop .invalidCheckpoint c3
    | some c4 => .next ((c4.checkpoint cfg.with_marker).append_message msgs) step_no
  | (c3, .done true) => .stop .completed c3
  | (c3, .done false) =>
    if cfg.max_steps_per_run < step_no + 1 then .stop (.maxSteps cfg.max_steps_per_run) c3
    else .next c3 (step_no + 1)

/-- How the compaction block inside the loop ends once it has been
triggered: a propagated provider error or cancellation stops the run, a
successful retried call installs the replacement via `compact_apply`
(failure of the inner `revert_to 0` would be an unhandled
`InvalidCheckpoint`). -/
def compactOutcome (cfg : LoopConfig) (ctx : Context) :
    CompactionCall → Except (RunResult × Context) Context
  | .err e => .error (.providerError e, ctx)
  | .cancel => .error (.cancelledRun, ctx)
  | .ok repl =>
    (compact_apply cfg.with_marker ctx repl).elim (.error (.invalidCheckpoint, ctx)) .ok

/-- The compaction check at the top of each loop iteration: compaction runs
exactly when `token_count + reserved_tokens >= max_context_size`. -/
def compactPhase (cfg : LoopConfig) (ctx : Context) (comp : CompactionCall) :
    Except (RunResult × Context) Context :=
  if cfg.max_context_size ≤ ctx.token_count + cfg.reserved_tokens then
    compactOutcome cfg ctx comp
  else .ok ctx

/-- One iteration of the `while` loop in `KimiSoul._agent_loop`: compact if
the token budget is nearly exhausted, take a checkpoint, run the step, then
dispatch on how the step ended. -/
def loopIter (cfg : LoopConfig) (ctx : Context) (step_no : Nat) (inp : IterInput) : IterOut :=
  match compactPhase cfg ctx inp.compaction with
  | .error rc => .stop rc.1 rc.2
  | .ok c1 => stepDispatch cfg step_no (stepRun (c1.checkpoint cfg.with_marker) inp.step)

/-- Embedding of the `while` loop of `KimiSoul._agent_loop` over a finite
script of external events; `none` means the script ran out before the run
terminated. -/
def agentLoop (cfg : LoopConfig) : Context → Nat → List IterInput → Option (RunResult × Context)
  | _, _, [] => none
  | ctx, step_no, i :: rest =>
    match loopIter cfg ctx step_no i with
    | .stop r c => some (r, c)
    | .next c n => agentLoop cfg c n rest

/-- Embedding of `KimiSoul.run`: raise `LLMNotSet` when no LLM is
configured, otherwise checkpoint (creating checkpoint 0 on a first run),
append the user message, and enter the agent loop at step 1. -/
def runSoul (cfg : LoopConfig) (llmSet : Bool) (ctx : Context) (user_input : String)
    (script : List IterInput) : Option (RunResult × Context) :=
  if llmSet then
    let c1 := (ctx.checkpoint cfg.with_marker).append_message [⟨Role.user, user_input, ""⟩]
    agentLoop cfg c1 1 script
  else some (.llmNotSet, ctx)

/-! ## The TagContext tool (`kimi_cli/tools/tag_context/__init__.py`) -/

inductive ToolReturn
  | toolOk (output : String)
  | toolError (message : String) (brief : String)
deriving DecidableEq, Repr

/-- The parameters of the TagContext tool; `message_ids = none` models the
field being omitted. -/
structure TagParams where
  task_id : String
  policy : Policy
  message_ids : Option (List String)
  ttl_steps : Nat
  importance : Nat
  notes : Option String
deriving DecidableEq, Repr

def policyDesc : Policy → String
  | .pin_outcome => "outcome retention (concise results)"
  | .pin_process => "process retention (detailed logs)"
  | .auto => "automatic policy selection"

/-- The success output string built by `TagContext.__call__` (an empty notes
string is falsy in the source and is omitted like `None`). -/
def tagOutput (p : TagParams) (ids : List String) : String :=
  let base :=
    "Tagged " ++ toString ids.length ++ " message(s) for task_id=" ++ p.task_id ++ "\n" ++
    "- Policy: " ++ policyDesc p.policy ++ "\n" ++
    "- Importance: " ++ toString p.importance ++ "/5\n" ++
    "- TTL: " ++ toString p.ttl_steps ++ " steps"
  match p.notes with
  | some n => if n.isEmpty then base else base ++ "\n- Notes: " ++ n
  | none => base

/-- The tail of `TagContext.__call__` once message ids are known: tag them
in the metadata store and report. -/
def tagAndReport (ctx : Context) (p : TagParams) (ids : List String) :
    ToolReturn × Option Context :=
  let m := ctx.meta.tag p.task_id ids p.policy p.ttl_steps p.importance p.notes
  (.toolOk (tagOutput p ids), some { ctx with meta := m })

/-- Embedding of `TagContext.__call__`: error when no context is current;
infer message ids from the five most recent assistant/tool messages when the
parameter is omitted, answering with a plain `ToolOk` (and tagging nothing)
when there is nothing to infer from. -/
def tagContextCall (octx : Option Context) (p : TagParams) : ToolReturn × Option Context :=
  match octx with
  | none =>
    (.toolError
       "Context not available. This tool must be run within an active soul session."
       "Context not available", none)
  | some ctx =>
    match p.message_ids with
    | none =>
      let ids := ctx.get_recent_message_ids 5 [Role.assistant, Role.tool]
      if ids.isEmpty then
        (.toolOk ("No recent messages found to tag for task_id=" ++ p.task_id ++
           ". Please specify message_ids explicitly."), some ctx)
      else
        tagAndReport ctx p ids
    | some ids => tagAndReport ctx p ids

/-! ## Spec-side predicates and observation helpers -/

/-- The four terminal outcomes named by the spec, section 7: completed,
cancelled, step limit, provider error. -/
def isOneOfFour : RunResult → Bool
  | .completed => true
  | .cancelledRun => true
  | .maxSteps _ => true
  | .providerError _ => true
  | _ => false

/-- The run result an iteration stops with, when it stops. -/
def iterResultOf : IterOut → Option RunResult
  | .stop r _ => some r
  | .next _ _ => none

/-- The step number an iteration continues with, when it continues. -/
def iterNextOf : IterOut → Option Nat
  | .stop _ _ => none
  | .next _ n => some n

/-! ## Basic context lemmas -/

theorem append_message_checkpoints (ctx : Context) (ms : List Message) :
    (ctx.append_message ms).checkpoints = ctx.checkpoints := rfl

theorem update_token_count_checkpoints (ctx : Context) (n : Nat) :
    (ctx.update_token_count n).checkpoints = ctx.checkpoints := rfl

theorem update_token_count_history (ctx : Context) (n : Nat) :
    (ctx.update_token_count n).history = ctx.history := rfl

theorem checkpoint_length (ctx : Context) (w : Bool) :
    (ctx.checkpoint w).checkpoints.length = ctx.checkpoints.length + 1 := by
  cases w <;> simp [Context.checkpoint, Context.append_message]

theorem checkpoint_length_pos (ctx : Context) (w : Bool) :
    0 < (ctx.checkpoint w).checkpoints.length := by
  rw [checkpoint_length]; omega

theorem checkpoint_checkpoints_append (ctx : Context) (w : Bool) :
    ∃ cp, (ctx.checkpoint w).checkpoints = ctx.checkpoints ++ [cp] := by
  cases w <;> exact ⟨_, rfl⟩

theorem revert_to_eq_some (ctx : Context) (cid : Nat) (h : cid < ctx.checkpoints.length) :
    ctx.revert_to cid = some { ctx with
      history := ctx.history.take (ctx.checkpoints.get ⟨cid, h⟩).histLen,
      checkpoints := ctx.checkpoints.take (cid + 1),
      token_count := (ctx.checkpoints.get ⟨cid, h⟩).tokenCount } := by
  simp [Context.revert_to, h]

theorem revert_to_ne_none (ctx : Context) (cid : Nat) (h : cid < ctx.checkpoints.length) :
    ctx.revert_to cid ≠ none := by
  rw [revert_to_eq_some ctx cid h]; exact Option.some_ne_none _

theorem foldl_append_history (rs : List ToolResultRec) (c : Context) :
    (rs.foldl (fun c tr => c.append_message tr.messages) c).history =
      c.history ++ (rs.map (fun tr => tr.messages)).flatten := by
  induction rs generalizing c with
  | nil => simp
  | cons tr rs ih =>
    rw [List.foldl_cons, ih]
    simp [Context.append_message, List.append_assoc]

theorem foldl_append_checkpoints (rs : List ToolResultRec) (c : Context) :
    (rs.foldl (fun c tr => c.append_message tr.messages) c).checkpoints = c.checkpoints := by
  induction rs generalizing c with
  | nil => rfl
  | cons tr rs ih => rw [List.foldl_cons, ih]; rfl

theorem grow_context_history (ctx : Context) (r : StepResultRec) (rs : List ToolResultRec) :
    (grow_context ctx r rs).history =
      ctx.history ++ [r.message] ++ (rs.map (fun tr => tr.messages)).flatten := by
  cases hu : r.usage <;>
  · simp only [grow_context, hu]
    rw [foldl_append_history]
    simp [Context.append_message, Context.update_token_count, List.append_assoc]

theorem grow_context_checkpoints (ctx : Context) (r : StepResultRec) (rs : List ToolResultRec) :
    (grow_context ctx r rs).checkpoints = ctx.checkpoints := by
  cases hu : r.usage <;>
  · simp only [grow_context, hu]
    rw [foldl_append_checkpoints]
    rfl

theorem stepContext_checkpoints (ctx : Context) (r : StepResultRec) (rs : List ToolResultRec) :
    (stepContext ctx r rs).checkpoints = ctx.checkpoints := by
  cases hu : r.usage <;>
    simp [stepContext, hu, grow_context_checkpoints, Context.update_token_count]

theorem stepContext_history (ctx : Context) (r : StepResultRec) (rs : List ToolResultRec) :
    (stepContext ctx r rs).history =
      ctx.history ++ [r.message] ++ (rs.map (fun tr => tr.messages)).flatten := by
  cases hu : r.usage <;>
    simp [stepContext, hu, grow_context_history, Context.update_token_count,
      update_token_count_history]

/-! ## Step lemmas -/

theorem stepRun_fst (ctx : Context) (r : StepResultRec) (rs : List ToolResultRec)
    (dm : Option Dmail) :
    (stepRun ctx (.ok r rs dm)).1 = stepContext ctx r rs := rfl

theorem stepRun_ok_rejected (ctx : Context) (r : StepResultRec) (rs : List ToolResultRec)
    (dm : Option Dmail) (hrej : rs.any (fun tr => tr.rejected) = true) :
    stepRun ctx (.ok r rs dm) = (stepContext ctx r rs, .done true) := by
  simp [stepRun, hrej]

theorem stepRun_ok_back (ctx : Context) (r : StepResultRec) (rs : List ToolResultRec)
    (d : Dmail) (hrej : rs.any (fun tr => tr.rejected) = false)
    (hcid : d.checkpoint_id < ctx.checkpoints.length) :
    stepRun ctx (.ok r rs (some d)) =
      (stepContext ctx r rs, .back d.checkpoint_id (dmailMessages d)) := by
  simp [stepRun, hrej, Context.n_checkpoints, stepContext_checkpoints, hcid]

theorem stepRun_ok_done (ctx : Context) (r : StepResultRec) (rs : List ToolResultRec)
    (hrej : rs.any (fun tr => tr.rejected) = false) :
    stepRun ctx (.ok r rs none) = (stepContext ctx r rs, .done r.tool_calls.isEmpty) := by
  simp [stepRun, hrej]

theorem stepRun_back_lt (ctx : Context) (inp : StepCall) (c : Context) (cid : Nat)
    (m : List Message) (h : stepRun ctx inp = (c, .back cid m)) :
    cid < c.checkpoints.length := by
  cases inp with
  | err e => simp [stepRun] at h
  | cancel => simp [stepRun] at h
  | ok r rs dm =>
    simp only [stepRun, Prod.mk.injEq] at h
    obtain ⟨hc, hout⟩ := h
    subst hc
    split at hout
    · simp at hout
    · split at hout
      · split at hout
        · rename_i hlt
          injection hout with h1 h2
          subst h1
          exact hlt
        · simp at hout
      · simp at hout

theorem stepRun_fst_checkpoints (ctx : Context) (inp : StepCall) :
    ((stepRun ctx inp).1).checkpoints = ctx.checkpoints := by
  cases inp with
  | err e => rfl
  | cancel => rfl
  | ok r rs dm => rw [stepRun_fst, stepContext_checkpoints]

/-! ## Loop lemmas -/

theorem compactPhase_not_triggered (cfg : LoopConfig) (ctx : Context) (comp : CompactionCall)
    (hc : ctx.token_count + cfg.reserved_tokens < cfg.max_context_size) :
    compactPhase cfg ctx comp = .ok ctx := by
  simp only [compactPhase, if_neg (Nat.not_le.mpr hc)]

theorem loopIter_no_compact (cfg : LoopConfig) (ctx : Context) (sn : Nat) (inp : IterInput)
    (hc : ctx.token_count + cfg.reserved_tokens < cfg.max_context_size) :
    loopIter cfg ctx sn inp =
      stepDispatch cfg sn (stepRun (ctx.checkpoint cfg.with_marker) inp.step) := by
  rw [loopIter, compactPhase_not_triggered cfg ctx inp.compaction hc]

theorem compact_apply_eq_some (w : Bool) (ctx : Context) (repl : List Message)
    (h : 0 < ctx.checkpoints.length) :
    ∃ c0, ctx.revert_to 0 = some c0 ∧
      compact_apply w ctx repl = some ((c0.checkpoint w).append_message repl) := by
  refine ⟨_, revert_to_eq_some ctx 0 h, ?_⟩
  rw [compact_apply, revert_to_eq_some ctx 0 h]
  rfl

theorem next_pos_of_dispatch (cfg : LoopConfig) (sn : Nat) (c1 : Context) (s : StepCall)
    (c : Context) (n : Nat)
    (h : stepDispatch cfg sn (stepRun (c1.checkpoint cfg.with_marker) s) = .next c n) :
    0 < c.checkpoints.length := by
  cases hstep : stepRun (c1.checkpoint cfg.with_marker) s with
  | mk c3 o =>
    rw [hstep] at h
    have hc3 : c3.checkpoints = (c1.checkpoint cfg.with_marker).checkpoints := by
      have h0 := stepRun_fst_checkpoints (c1.checkpoint cfg.with_marker) s
      rw [hstep] at h0
      exact h0
    cases o with
    | err e => simp [stepDispatch] at h
    | cancel => simp [stepDispatch] at h
    | assertFail => simp [stepDispatch] at h
    | back cid msgs =>
      simp only [stepDispatch] at h
      split at h
      · simp at h
      · rename_i c4 hrev
        injection h with h1 h2
        subst h1
        rw [append_message_checkpoints, checkpoint_length]
        omega
    | done fin =>
      cases fin with
      | false =>
        simp only [stepDispatch] at h
        split at h
        · simp at h
        · injection h with h1 h2
          subst h1
          rw [hc3, checkpoint_length]
          omega
      | true => simp [stepDispatch] at h

theorem stop_classified_of_dispatch (cfg : LoopConfig) (sn : Nat) (c1 : Context) (s : StepCall)
    (r : RunResult) (c : Context)
    (h : stepDispatch cfg sn (stepRun (c1.checkpoint cfg.with_marker) s) = .stop r c) :
    isOneOfFour r = true ∨ r = RunResult.assertFailure := by
  cases hstep : stepRun (c1.checkpoint cfg.with_marker) s with
  | mk c3 o =>
    rw [hstep] at h
    cases o with
    | err e =>
      simp only [stepDispatch] at h
      injection h with h1 h2
      subst h1
      left
      rfl
    | cancel =>
      simp only [stepDispatch] at h
      injection h with h1 h2
      subst h1
      left
      rfl
    | assertFail =>
      simp only [stepDispatch] at h
      injection h with h1 h2
      subst h1
      right
      rfl
    | back cid msgs =>
      have hlt := stepRun_back_lt (c1.checkpoint cfg.with_marker) s c3 cid msgs hstep
      simp only [stepDispatch] at h
      split at h
      · rename_i hrev
        exact absurd hrev (revert_to_ne_none c3 cid hlt)
      · simp at h
    | done fin =>
      cases fin with
      | false =>
        simp only [stepDispatch] at h
        split at h
        · injection h with h1 h2
          subst h1
          left
          rfl
        · simp at h
      | true =>
        simp only [stepDispatch] at h
        injection h with h1 h2
        subst h1
        left
        rfl

theorem compactPhase_error_classified (cfg : LoopConfig) (ctx : Context)
    (comp : CompactionCall) (rc : RunResult × Context)
    (hck : 0 < ctx.checkpoints.length)
    (h : compactPhase cfg ctx comp = .error rc) :
    isOneOfFour rc.1 = true := by
  unfold compactPhase at h
  by_cases hcc : cfg.max_context_size ≤ ctx.token_count + cfg.reserved_tokens
  · rw [if_pos hcc] at h
    cases comp with
    | err e =>
      rw [compactOutcome] at h
      injection h with h1
      rw [← h1]
      rfl
    | cancel =>
      rw [compactOutcome] at h
      injection h with h1
      rw [← h1]
      rfl
    | ok repl =>
      rw [compactOutcome] at h
      obtain ⟨c0, hrev, happ⟩ := compact_apply_eq_some cfg.with_marker ctx repl hck
      rw [happ] at h
      simp at h
  · rw [if_neg hcc] at h
    injection h

theorem loopIter_next_pos (cfg : LoopConfig) (ctx : Context) (sn : Nat) (i : IterInput)
    (c : Context) (n : Nat) (h : loopIter cfg ctx sn i = .next c n) :
    0 < c.checkpoints.length := by
  unfold loopIter at h
  cases hphase : compactPhase cfg ctx i.compaction with
  | error rc =>
    rw [hphase] at h
    simp at h
  | ok c1 =>
    rw [hphase] at h
    exact next_pos_of_dispatch cfg sn c1 i.step c n h

theorem loopIter_stop_classified (cfg : LoopConfig) (ctx : Context) (sn : Nat) (i : IterInput)
    (r : RunResult) (c : Context)
    (hck : 0 < ctx.checkpoints.length)
    (h : loopIter cfg ctx sn i = .stop r c) :
    isOneOfFour r = true ∨ r = RunResult.assertFailure := by
  unfold loopIter at h
  cases hphase : compactPhase cfg ctx i.compaction with
  | error rc =>
    rw [hphase] at h
    injection h with h1 h2
    rw [← h1]
    left
    exact compactPhase_error_classified cfg ctx i.compaction rc hck hphase
  | ok c1 =>
    rw [hphase] at h
    exact stop_classified_of_dispatch cfg sn c1 i.step r c h

theorem agentLoop_classified (cfg : LoopConfig) (script : List IterInput) :
    ∀ (ctx : Context) (sn : Nat) (r : RunResult) (c : Context),
      0 < ctx.checkpoints.length →
      agentLoop cfg ctx sn script = some (r, c) →
      isOneOfFour r = true ∨ r = RunResult.assertFailure := by
  induction script with
  | nil =>
    intro ctx sn r c _ h
    simp [agentLoop] at h
  | cons i rest ih =>
    intro ctx sn r c hck h
    rw [agentLoop] at h
    cases hit : loopIter cfg ctx sn i with
    | stop r' c' =>
      rw [hit] at h
      injection h with h1
      injection h1 with h2 h3
      subst h2
      exact loopIter_stop_classified cfg ctx sn i r' c' hck hit
    | next c' n' =>
      rw [hit] at h
      exact ih c' n' r c (loopIter_next_pos cfg ctx sn i c' n' hit) h

/-! ## Retry lemmas -/

theorem retryFrom_error_spec {α : Type} (calls : Nat → Except ProviderErr α) :
    ∀ (fuel attempt : Nat) (e : ProviderErr),
      retryFrom calls fuel attempt = .error e →
      ∃ k, attempt ≤ k ∧ k ≤ attempt + fuel ∧ calls k = .error e ∧
        (is_retryable_error e = false ∨ k = attempt + fuel) := by
  intro fuel
  induction fuel with
  | zero =>
    intro attempt e h
    simp only [retryFrom] at h
    exact ⟨attempt, le_refl _, by omega, h, Or.inr (by omega)⟩
  | succ f ih =>
    intro attempt e h
    simp only [retryFrom] at h
    cases hc : calls attempt with
    | ok a =>
      rw [hc] at h
      simp [retryResume] at h
    | error e' =>
      rw [hc] at h
      simp only [retryResume] at h
      by_cases hr : is_retryable_error e' = true
      · rw [if_pos hr] at h
        obtain ⟨k, h1, h2, h3, h4⟩ := ih (attempt + 1) e h
        refine ⟨k, by omega, by omega, h3, ?_⟩
        rcases h4 with h4 | h4
        · exact Or.inl h4
        · exact Or.inr (by omega)
      · rw [if_neg hr] at h
        injection h with h1
        subst h1
        exact ⟨attempt, le_refl _, by omega, hc, Or.inl (by simpa using hr)⟩

/-! ## Pin sorting lemmas -/

theorem mem_insertPin (p a : PinRecord) (l : List PinRecord) :
    a ∈ insertPin p l ↔ a = p ∨ a ∈ l := by
  induction l with
  | nil => simp [insertPin]
  | cons q qs ih =>
    simp only [insertPin]
    by_cases h : p.importance < q.importance
    · rw [if_pos h]
      simp only [List.mem_cons, ih]
      try tauto
    · rw [if_neg h]
      simp only [List.mem_cons]
      try tauto

theorem mem_sortPins (a : PinRecord) (l : List PinRecord) : a ∈ sortPins l ↔ a ∈ l := by
  induction l with
  | nil => simp [sortPins]
  | cons p ps ih => simp [sortPins, mem_insertPin, ih]

theorem insertPin_pairwise (p : PinRecord) (l : List PinRecord)
    (h : l.Pairwise (fun a b => b.importance ≤ a.importance)) :
    (insertPin p l).Pairwise (fun a b => b.importance ≤ a.importance) := by
  induction l with
  | nil => simp [insertPin]
  | cons q qs ih =>
    rcases List.pairwise_cons.mp h with ⟨hq, hqs⟩
    simp only [insertPin]
    by_cases hpq : p.importance < q.importance
    · rw [if_pos hpq]
      refine List.pairwise_cons.mpr ⟨?_, ih hqs⟩
      intro b hb
      rcases (mem_insertPin p b qs).mp hb with rfl | hb
      · omega
      · exact hq b hb
    · rw [if_neg hpq]
      refine List.pairwise_cons.mpr ⟨?_, h⟩
      intro b hb
      rcases List.mem_cons.mp hb with rfl | hb
      · omega
      · have := hq b hb
        omega

theorem sortPins_pairwise (l : List PinRecord) :
    (sortPins l).Pairwise (fun a b => b.importance ≤ a.importance) := by
  induction l with
  | nil => simp [sortPins]
  | cons p ps ih => exact insertPin_pairwise p (sortPins ps) ih

theorem insertPin_filter (p : PinRecord) (l : List PinRecord) (i : Nat) :
    (insertPin p l).filter (fun q => q.importance == i) =
      if p.importance == i then p :: l.filter (fun q => q.importance == i)
      else l.filter (fun q => q.importance == i) := by
  induction l with
  | nil =>
    simp only [insertPin, List.filter]
    by_cases hpi : (p.importance == i) = true
    · rw [hpi]
      simp [hpi]
    · simp only [Bool.not_eq_true] at hpi
      rw [hpi]
      simp [hpi]
  | cons q qs ih =>
    simp only [insertPin]
    by_cases hpq : p.importance < q.importance
    · rw [if_pos hpq]
      rw [List.filter_cons, ih]
      by_cases hpi : (p.importance == i) = true
      · have hp : p.importance = i := by simpa using hpi
        have hqi : (q.importance == i) = false := by
          simp only [beq_eq_false_iff_ne]
          omega
        rw [List.filter_cons, hpi, hqi]
        simp
      · simp only [Bool.not_eq_true] at hpi
        rw [List.filter_cons, hpi]
        simp
    · rw [if_neg hpq, List.filter_cons]

theorem sortPins_filter (l : List PinRecord) (i : Nat) :
    (sortPins l).filter (fun q => q.importance == i) =
      l.filter (fun q => q.importance == i) := by
  induction l with
  | nil => rfl
  | cons p ps ih =>
    simp only [sortPins, insertPin_filter, ih, List.filter_cons]

/-! ## Concrete fixtures -/

def exMeta : MetadataStore := ⟨none, 0⟩

def exCtx : Context := ⟨[], [], 0, exMeta⟩

def cfgEx : LoopConfig := ⟨10, 1000, 0, false⟩

def cpCtx : Context := Context.checkpoint exCtx false

def resFin : StepResultRec := ⟨⟨Role.assistant, "done", "a1"⟩, [], none⟩

def resEx3 : StepResultRec := ⟨⟨Role.assistant, "calling", "a2"⟩, [⟨"t1"⟩], none⟩

def dEx : Dmail := ⟨0, "note"⟩

def mEx : Message := ⟨Role.assistant, "summary", "s1"⟩

def scriptEx9 : List IterInput := [⟨CompactionCall.ok [], StepCall.ok resFin [] none⟩]

def calls503 : Nat → Except ProviderErr Nat :=
  fun n => if n = 4 then .ok 7 else .error (.status 503)

/-! ## Claims -/

/-- C1: when a time-travel signal is pending after tool results are
processed and its target checkpoint id is within the asserted bound, the
loop reverts the Context to that checkpoint (truncating history and the
checkpoint list to the recorded state), takes a new checkpoint, appends the
injected advisory message built from the signal's payload, and continues
with the same step number — with no maximum-step check on this path, so the
replay does not count toward the max-step limit. -/
theorem c1_time_travel_replay (cfg : LoopConfig) (ctx : Context) (step_no : Nat)
    (comp : CompactionCall) (r : StepResultRec) (trs : List ToolResultRec) (d : Dmail)
    (hc : ctx.token_count + cfg.reserved_tokens < cfg.max_context_size)
    (hrej : trs.any (fun tr => tr.rejected) = false)
    (hcid : d.checkpoint_id < (ctx.checkpoint cfg.with_marker).n_checkpoints) :
    ∃ c4 cp,
      (stepContext (ctx.checkpoint cfg.with_marker) r trs).checkpoints[d.checkpoint_id]? =
        some cp ∧
      (stepContext (ctx.checkpoint cfg.with_marker) r trs).revert_to d.checkpoint_id =
        some c4 ∧
      c4.history =
        (stepContext (ctx.checkpoint cfg.with_marker) r trs).history.take cp.histLen ∧
      c4.checkpoints =
        (stepContext (ctx.checkpoint cfg.with_marker) r trs).checkpoints.take
          (d.checkpoint_id + 1) ∧
      c4.token_count = cp.tokenCount ∧
      loopIter cfg ctx step_no ⟨comp, .ok r trs (some d)⟩ =
        .next ((c4.checkpoint cfg.with_marker).append_message (dmailMessages d)) step_no := by
  have hlen : d.checkpoint_id <
      (stepContext (ctx.checkpoint cfg.with_marker) r trs).checkpoints.length := by
    rw [stepContext_checkpoints]
    exact hcid
  refine ⟨_, (stepContext (ctx.checkpoint cfg.with_marker) r trs).checkpoints.get
      ⟨d.checkpoint_id, hlen⟩, ?_, revert_to_eq_some _ _ hlen, rfl, rfl, rfl, ?_⟩
  · rw [List.getElem?_eq_getElem hlen, List.get_eq_getElem]
  · rw [loopIter_no_compact cfg ctx step_no _ hc]
    rw [show (⟨comp, StepCall.ok r trs (some d)⟩ : IterInput).step =
      StepCall.ok r trs (some d) from rfl]
    rw [stepRun_ok_back (ctx.checkpoint cfg.with_marker) r trs d hrej hcid]
    simp only [stepDispatch]
    rw [revert_to_eq_some _ _ hlen]

/-- C1 witness: a concrete iteration with a pending D-Mail targeting
checkpoint 0 during step 3 continues at step 3 again. -/
theorem c1_witness :
    iterNextOf (loopIter cfgEx exCtx 3
      ⟨CompactionCall.ok [], StepCall.ok resEx3 [⟨false, []⟩] (some dEx)⟩) = some 3 := by
  obtain ⟨c4, cp, h1, h2, h3, h4, h5, h6⟩ :=
    c1_time_travel_replay cfgEx exCtx 3 (CompactionCall.ok []) resEx3 [⟨false, []⟩] dEx
      (by decide) (by decide) (by decide)
  rw [h6]
  rfl

/-- C2: whenever the (retried) compaction call returns the replacement
sequence, `compact_context` performs `revert_to 0`, then takes a new
checkpoint, then appends the replacement: every checkpoint after checkpoint
0 is discarded, checkpoint 0 itself survives, and the checkpoint sequence
restarts from it (exactly two checkpoints remain). -/
theorem c2_compaction_restarts (m : Nat) (calls : Nat → Except ProviderErr (List Message))
    (w : Bool) (ctx : Context) (repl : List Message)
    (hck : 0 < ctx.checkpoints.length)
    (hcall : retryCall m calls = .ok repl) :
    ∃ c0, ctx.revert_to 0 = some c0 ∧
      compact_context m calls w ctx = .ok (some ((c0.checkpoint w).append_message repl)) ∧
      c0.checkpoints = ctx.checkpoints.take 1 ∧
      ((c0.checkpoint w).append_message repl).checkpoints.length = 2 ∧
      ((c0.checkpoint w).append_message repl).checkpoints.head? = ctx.checkpoints.head? := by
  obtain ⟨c0, hrev, happ⟩ := compact_apply_eq_some w ctx repl hck
  have h0 := (revert_to_eq_some ctx 0 hck).symm.trans hrev
  injection h0 with h1
  have hc0 : c0.checkpoints = ctx.checkpoints.take 1 := by rw [← h1]
  refine ⟨c0, hrev, ?_, hc0, ?_, ?_⟩
  · unfold compact_context
    rw [hcall]
    simp only [Except.map]
    rw [happ]
  · rw [append_message_checkpoints, checkpoint_length, hc0, List.length_take]
    omega
  · rw [append_message_checkpoints]
    obtain ⟨cp, hcp⟩ := checkpoint_checkpoints_append c0 w
    rw [hcp, hc0]
    cases hl : ctx.checkpoints with
    | nil => rw [hl] at hck; simp at hck
    | cons a t => simp

/-- C2 witness: compacting a context holding one checkpoint leaves exactly
two checkpoints. -/
theorem c2_witness :
    (compact_context 1 (fun _ => Except.ok [mEx]) false cpCtx).map
      (fun o => o.map (fun c => c.checkpoints.length)) = Except.ok (some 2) := by
  obtain ⟨c0, h1, h2, h3, h4, h5⟩ :=
    c2_compaction_restarts 1 (fun _ => Except.ok [mEx]) false cpCtx [mEx] (by decide) rfl
  rw [h2]
  simp [Except.map, h4]

/-- C3 counterexample: the claim quantifies over every completed step, but a
step whose tool result was rejected ends the run as finished although the
model issued a tool call, and a step with a pending time-travel signal
continues at the same step number (not incremented) although the model
issued a tool call. -/
theorem c3_counterexample :
    (iterResultOf (loopIter cfgEx exCtx 1
        ⟨CompactionCall.ok [], StepCall.ok resEx3 [⟨true, []⟩] none⟩) =
      some RunResult.completed ∧ resEx3.tool_calls ≠ []) ∧
    (iterNextOf (loopIter cfgEx exCtx 3
        ⟨CompactionCall.ok [], StepCall.ok resEx3 [⟨false, []⟩] (some ⟨0, "x"⟩)⟩) =
      some 3 ∧ resEx3.tool_calls ≠ []) := by
  refine ⟨⟨by decide, by decide⟩, ⟨by decide, by decide⟩⟩

/-- C3 (amended): for every completed step in which no tool result was a
user rejection and no time-travel signal was pending, the run is finished
iff the model's turn issued no tool calls; otherwise the step counter is
incremented and the loop continues, and if the incremented counter would
exceed `max_steps_per_run` the loop stops with the max-steps error instead
of starting another step. -/
theorem c3_check_finish (cfg : LoopConfig) (ctx : Context) (sn : Nat)
    (comp : CompactionCall) (r : StepResultRec) (trs : List ToolResultRec)
    (hc : ctx.token_count + cfg.reserved_tokens < cfg.max_context_size)
    (hrej : trs.any (fun tr => tr.rejected) = false) :
    (r.tool_calls = [] →
      loopIter cfg ctx sn ⟨comp, .ok r trs none⟩ =
        .stop RunResult.completed (stepContext (ctx.checkpoint cfg.with_marker) r trs)) ∧
    (r.tool_calls ≠ [] → cfg.max_steps_per_run < sn + 1 →
      loopIter cfg ctx sn ⟨comp, .ok r trs none⟩ =
        .stop (RunResult.maxSteps cfg.max_steps_per_run)
          (stepContext (ctx.checkpoint cfg.with_marker) r trs)) ∧
    (r.tool_calls ≠ [] → sn + 1 ≤ cfg.max_steps_per_run →
      loopIter cfg ctx sn ⟨comp, .ok r trs none⟩ =
        .next (stepContext (ctx.checkpoint cfg.with_marker) r trs) (sn + 1)) := by
  have hiter : loopIter cfg ctx sn ⟨comp, .ok r trs none⟩ =
      stepDispatch cfg sn (stepContext (ctx.checkpoint cfg.with_marker) r trs,
        .done r.tool_calls.isEmpty) := by
    rw [loopIter_no_compact cfg ctx sn _ hc]
    rw [show (⟨comp, StepCall.ok r trs none⟩ : IterInput).step =
      StepCall.ok r trs none from rfl]
    rw [stepRun_ok_done _ r trs hrej]
  refine ⟨?_, ?_, ?_⟩
  · intro hnil
    rw [hiter, show r.tool_calls.isEmpty = true from by simp [hnil]]
    rfl
  · intro hne hmax
    have hemp : r.tool_calls.isEmpty = false := by
      cases hl : r.tool_calls with
      | nil => exact absurd hl hne
      | cons a t => rfl
    rw [hiter, hemp]
    simp only [stepDispatch]
    rw [if_pos hmax]
  · intro hne hle
    have hemp : r.tool_calls.isEmpty = false := by
      cases hl : r.tool_calls with
      | nil => exact absurd hl hne
      | cons a t => rfl
    rw [hiter, hemp]
    simp only [stepDispatch]
    rw [if_neg (by omega)]

/-- C3 witness: a step with zero tool calls ends the run as finished. -/
theorem c3_witness :
    loopIter cfgEx exCtx 1 ⟨CompactionCall.ok [], StepCall.ok resFin [] none⟩ =
      .stop RunResult.completed
        (stepContext (exCtx.checkpoint cfgEx.with_marker) resFin []) :=
  (c3_check_finish cfgEx exCtx 1 (CompactionCall.ok []) resFin [] (by decide) rfl).1 rfl

/-- C4: an error is classified retryable iff it is a connection failure, a
timeout, or a status error with status in 429, 500, 502, 503; and a call
failing with status 401 is never retried — the retried call propagates that
error on the first attempt. -/
theorem c4_retryable_classification :
    (∀ e : ProviderErr, is_retryable_error e = true ↔
      (e = .connection ∨ e = .timeout ∨ e = .status 429 ∨ e = .status 500 ∨
       e = .status 502 ∨ e = .status 503)) ∧
    (∀ (α : Type) (m : Nat) (calls : Nat → Except ProviderErr α),
      calls 1 = .error (.status 401) → retryCall m calls = .error (.status 401)) := by
  constructor
  · intro e
    cases e with
    | connection => simp [is_retryable_error]
    | timeout => simp [is_retryable_error]
    | status c =>
      simp [is_retryable_error]
      tauto
    | otherErr => simp [is_retryable_error]
  · intro α m calls h
    rw [retryCall]
    cases hm : m - 1 with
    | zero => simp [retryFrom, h]
    | succ f => simp [retryFrom, retryResume, h, is_retryable_error]

/-- C4 witness: a 401-failing call propagates on the first attempt even
with five attempts allowed. -/
theorem c4_witness :
    retryCall 5 (fun _ => (Except.error (ProviderErr.status 401) : Except ProviderErr Nat)) =
      Except.error (ProviderErr.status 401) :=
  c4_retryable_classification.2 Nat 5 (fun _ => Except.error (ProviderErr.status 401)) rfl

/-- C5: the retried call propagates an error only when that error came from
one of the at most `m` attempts, unchanged, and only because it was
non-retryable or the attempt bound was exhausted; and a retryable 503 error
occurring three times followed by a success is fully absorbed whenever the
bound is at least 4. -/
theorem c5_retry_policy :
    (∀ (α : Type) (m : Nat) (calls : Nat → Except ProviderErr α) (e : ProviderErr),
      1 ≤ m → retryCall m calls = .error e →
      ∃ k, 1 ≤ k ∧ k ≤ m ∧ calls k = .error e ∧
        (is_retryable_error e = false ∨ k = m)) ∧
    (∀ (α : Type) (m : Nat) (calls : Nat → Except ProviderErr α) (a : α),
      4 ≤ m →
      calls 1 = .error (.status 503) → calls 2 = .error (.status 503) →
      calls 3 = .error (.status 503) → calls 4 = .ok a →
      retryCall m calls = .ok a) := by
  constructor
  · intro α m calls e hm h
    rw [retryCall] at h
    obtain ⟨k, h1, h2, h3, h4⟩ := retryFrom_error_spec calls (m - 1) 1 e h
    refine ⟨k, h1, by omega, h3, ?_⟩
    rcases h4 with h4 | h4
    · exact Or.inl h4
    · exact Or.inr (by omega)
  · intro α m calls a hm h1 h2 h3 h4
    obtain ⟨j, rfl⟩ : ∃ j, m = 4 + j := ⟨m - 4, by omega⟩
    have hm1 : 4 + j - 1 = j + 3 := by omega
    rw [retryCall, hm1]
    have s1 : retryFrom calls (j + 3) 1 = retryFrom calls (j + 2) 2 := by
      simp [retryFrom, retryResume, h1, is_retryable_error]
    have s2 : retryFrom calls (j + 2) 2 = retryFrom calls (j + 1) 3 := by
      simp [retryFrom, retryResume, h2, is_retryable_error]
    have s3 : retryFrom calls (j + 1) 3 = retryFrom calls j 4 := by
      simp [retryFrom, retryResume, h3, is_retryable_error]
    have s4 : retryFrom calls j 4 = .ok a := by
      cases j with
      | zero => simp [retryFrom, h4]
      | succ jj => simp [retryFrom, retryResume, h4]
    rw [s1, s2, s3, s4]

/-- C5 witness: three 503 failures then a success under bound 4 are fully
absorbed. -/
theorem c5_witness : retryCall 4 calls503 = Except.ok 7 :=
  c5_retry_policy.2 Nat 4 calls503 7 (by decide) rfl rfl rfl rfl

/-- C6: if any tool result of a step was rejected by the user, the
iteration ends the run as finished — regardless of any pending time-travel
signal, which is discarded without any revert (the resulting context is the
grown one). -/
theorem c6_rejection_ends_run (cfg : LoopConfig) (ctx : Context) (sn : Nat)
    (comp : CompactionCall) (r : StepResultRec) (trs : List ToolResultRec) (dm : Option Dmail)
    (hc : ctx.token_count + cfg.reserved_tokens < cfg.max_context_size)
    (hrej : trs.any (fun tr => tr.rejected) = true) :
    loopIter cfg ctx sn ⟨comp, .ok r trs dm⟩ =
      .stop RunResult.completed (stepContext (ctx.checkpoint cfg.with_marker) r trs) := by
  rw [loopIter_no_compact cfg ctx sn _ hc]
  rw [show (⟨comp, StepCall.ok r trs dm⟩ : IterInput).step = StepCall.ok r trs dm from rfl]
  rw [stepRun_ok_rejected _ r trs dm hrej]
  rfl

/-- C6 witness: a rejected tool result with a pending D-Mail still ends the
run as finished (the signal is dropped, no revert happens). -/
theorem c6_witness :
    loopIter cfgEx exCtx 2
      ⟨CompactionCall.ok [], StepCall.ok resEx3 [⟨true, []⟩] (some ⟨0, "x"⟩)⟩ =
      .stop RunResult.completed
        (stepContext (exCtx.checkpoint cfgEx.with_marker) resEx3 [⟨true, []⟩]) :=
  c6_rejection_ends_run cfgEx exCtx 2 (CompactionCall.ok []) resEx3 [⟨true, []⟩]
    (some ⟨0, "x"⟩) (by decide) rfl

/-- C7: in every step that reaches context growth, the model's message is
appended to the Context before any tool-result messages, and the
tool-result messages follow in the order the corresponding tool calls were
issued. -/
theorem c7_grow_context_order (ctx : Context) (r : StepResultRec) (trs : List ToolResultRec)
    (dm : Option Dmail) :
    ((stepRun ctx (.ok r trs dm)).1).history =
      ctx.history ++ [r.message] ++ (trs.map (fun tr => tr.messages)).flatten := by
  rw [stepRun_fst, stepContext_history]

theorem list_active_pins_eq (s : MetadataStore) (l : List MetaRecord) (step : Nat)
    (h : s.log = some l) :
    s.list_active_pins (some step) = sortPins (activePinsUnsorted l step) := by
  simp [MetadataStore.list_active_pins, h]

theorem mem_activePinsUnsorted (p : PinRecord) (l : List MetaRecord) (step : Nat)
    (hmem : MetaRecord.tag p ∈ l) :
    p ∈ activePinsUnsorted l step ↔ step < p.created_at_step + p.ttl_steps := by
  simp only [activePinsUnsorted, List.mem_filter, List.mem_filterMap, decide_eq_true_eq]
  constructor
  · rintro ⟨-, hpred⟩
    exact hpred
  · intro hlt
    exact ⟨⟨MetaRecord.tag p, hmem, rfl⟩, hlt⟩

def pinLo : PinRecord := ⟨"t3", ["m3"], Policy.pin_outcome, 200, 1, none, 0⟩

def pinMid : PinRecord := ⟨"t1", ["m1"], Policy.pin_outcome, 100, 3, none, 0⟩

def pinHi : PinRecord := ⟨"t2", ["m2"], Policy.pin_process, 50, 5, none, 0⟩

def exLog8 : List MetaRecord :=
  [MetaRecord.tag pinMid, MetaRecord.tag pinHi, MetaRecord.map ⟨"todo1", "t1"⟩,
    MetaRecord.tag pinLo]

def exStore8 : MetadataStore := ⟨some exLog8, 0⟩

/-- C8: `list_active_pins` returns exactly the tag records of the log that
satisfy `step < created_at_step + ttl_steps` (so a pin with TTL `T` created
at step `S` is listed at `S` and at `S + T - 1` and not at `S + T`), sorted
by importance descending with equal-importance records kept in log order
(characterized by the importance-class filters being preserved), and
returns the empty sequence when the backing log does not exist. -/
theorem c8_list_active_pins :
    (∀ (s : MetadataStore) (step : Option Nat), s.log = none →
      s.list_active_pins step = []) ∧
    (∀ (s : MetadataStore) (l : List MetaRecord) (step : Nat), s.log = some l →
      ((∀ p, p ∈ s.list_active_pins (some step) ↔ p ∈ activePinsUnsorted l step) ∧
       (s.list_active_pins (some step)).Pairwise
         (fun a b => b.importance ≤ a.importance) ∧
       (∀ i, (s.list_active_pins (some step)).filter (fun q => q.importance == i) =
         (activePinsUnsorted l step).filter (fun q => q.importance == i)))) ∧
    (∀ (p : PinRecord) (l : List MetaRecord) (step : Nat), MetaRecord.tag p ∈ l →
      (p ∈ activePinsUnsorted l step ↔ step < p.created_at_step + p.ttl_steps)) ∧
    (∀ (s : MetadataStore) (l : List MetaRecord) (p : PinRecord),
      s.log = some l → MetaRecord.tag p ∈ l → 1 ≤ p.ttl_steps →
      (p ∈ s.list_active_pins (some p.created_at_step) ∧
       p ∈ s.list_active_pins (some (p.created_at_step + p.ttl_steps - 1)) ∧
       p ∉ s.list_active_pins (some (p.created_at_step + p.ttl_steps)))) := by
  refine ⟨?_, ?_, ?_, ?_⟩
  · intro s step h
    simp [MetadataStore.list_active_pins, h]
  · intro s l step h
    refine ⟨?_, ?_, ?_⟩
    · intro p
      rw [list_active_pins_eq s l step h, mem_sortPins]
    · rw [list_active_pins_eq s l step h]
      exact sortPins_pairwise _
    · intro i
      rw [list_active_pins_eq s l step h, sortPins_filter]
  · intro p l step hmem
    exact mem_activePinsUnsorted p l step hmem
  · intro s l p hlog hmem httl
    have key : ∀ step : Nat, p ∈ s.list_active_pins (some step) ↔
        step < p.created_at_step + p.ttl_steps := by
      intro step
      rw [list_active_pins_eq s l step hlog, mem_sortPins]
      exact mem_activePinsUnsorted p l step hmem
    refine ⟨(key _).mpr (by omega), (key _).mpr (by omega), fun hin => ?_⟩
    have := (key _).mp hin
    omega

/-- C8 witness: in a concrete log with importances 3, 5, 1 and a non-tag
record, the importance-5 pin is listed at step 0. -/
theorem c8_witness : pinHi ∈ exStore8.list_active_pins (some 0) := by
  have h := (c8_list_active_pins.2.1 exStore8 exLog8 0 rfl).1 pinHi
  exact h.mpr (by decide)

/-- C9 counterexample: invoking `run` without an LLM configured terminates
with the `LLMNotSet` error, which is none of the four terminal outcomes the
claim allows. -/
theorem c9_counterexample :
    (runSoul cfgEx false exCtx "hi" []).map Prod.fst = some RunResult.llmNotSet ∧
    isOneOfFour RunResult.llmNotSet = false :=
  ⟨rfl, rfl⟩

/-- C9 (amended): every invocation of `run` made with an LLM configured
that terminates — and in which the time-travel producer's checkpoint-id
guarantee holds, so the asserted bound never fails — ends in exactly one of
the four terminal outcomes: completed (including the tool-rejection case),
cancelled, step limit, or provider error. -/
theorem c9_run_outcomes (cfg : LoopConfig) (ctx : Context) (u : String)
    (script : List IterInput) (r : RunResult)
    (h : (runSoul cfg true ctx u script).map Prod.fst = some r)
    (hna : r ≠ RunResult.assertFailure) :
    isOneOfFour r = true := by
  rw [runSoul] at h
  rw [if_pos rfl] at h
  have hpos : 0 < (((ctx.checkpoint cfg.with_marker).append_message
      [⟨Role.user, u, ""⟩])).checkpoints.length := by
    rw [append_message_checkpoints]
    exact checkpoint_length_pos ctx cfg.with_marker
  cases hal : agentLoop cfg
      ((ctx.checkpoint cfg.with_marker).append_message [⟨Role.user, u, ""⟩]) 1 script with
  | none =>
    rw [hal] at h
    simp at h
  | some pr =>
    obtain ⟨r', c'⟩ := pr
    rw [hal] at h
    have h1 : r' = r := by simpa using h
    subst h1
    rcases agentLoop_classified cfg script _ 1 r' c' hpos hal with hfour | hassert
    · exact hfour
    · exact absurd hassert hna

/-- C9 witness: a one-step script whose model turn issues no tool calls
completes, and completion is one of the four outcomes. -/
theorem c9_witness : isOneOfFour RunResult.completed = true :=
  c9_run_outcomes cfgEx exCtx "hi" scriptEx9 RunResult.completed (by decide) (by decide)

def ctxEx10 : Context := ⟨[⟨Role.user, "hello", "u1"⟩], [], 0, exMeta⟩

def pEx10 : TagParams := ⟨"task_empty", Policy.pin_outcome, none, 100, 3, none⟩

/-- C10: a TagContext call with `message_ids` omitted, against a context
whose recent assistant/tool messages yield nothing to infer from, returns a
successful `ToolOk` asking for explicit message ids and leaves the context
— in particular its metadata store — unchanged, appending no PinRecord. -/
theorem c10_tag_context_no_recent (ctx : Context) (p : TagParams)
    (hids : p.message_ids = none)
    (hno : ctx.get_recent_message_ids 5 [Role.assistant, Role.tool] = []) :
    tagContextCall (some ctx) p =
      (ToolReturn.toolOk ("No recent messages found to tag for task_id=" ++ p.task_id ++
        ". Please specify message_ids explicitly."), some ctx) := by
  simp [tagContextCall, hids, hno]

/-- C10 witness: a concrete context holding only a user message yields the
plain `ToolOk` answer and an unchanged context. -/
theorem c10_witness :
    tagContextCall (some ctxEx10) pEx10 =
      (ToolReturn.toolOk ("No recent messages found to tag for task_id=" ++ pEx10.task_id ++
        ". Please specify message_ids explicitly."), some ctxEx10) :=
  c10_tag_context_no_recent ctxEx10 pEx10 rfl (by decide)

end Kimi
